import Mathlib

/-!
Shallow embedding of `src/main.rs` of `tft-synapse`, a rule-based TFT augment
suggester, together with theorems settling the specification claims.

Modelling conventions:
* `f32` values are embedded as exact rationals `ℚ` (the arithmetic in the
  program is small-magnitude and structural; a separate model `F32` with NaN,
  the two infinities and overflow past `f32::MAX` is used for the claim about
  `partial_cmp`/`unwrap` safety).
* `i32` values are embedded as `ℤ`.
* `HashMap<K,V>` is embedded as an association list `List (K × V)`;
  `HashMap::get` is `List.lookup`.  The iteration order of a hash map is
  arbitrary, which is captured by quantifying over permutations of the
  association list where a claim mentions iteration order.
* `Vec<T>` is `List T`.
-/

namespace TftSynapse

/-- Rational model of `x.clamp(lo, hi)` (`f32::clamp` for non-NaN input, `lo ≤ hi`):
if `x < lo` return `lo`, if `x > hi` return `hi`, else `x`. -/
def clampQ (x lo hi : ℚ) : ℚ := if x < lo then lo else if hi < x then hi else x

/-- One entry of `augments.yaml`: `struct AugEntry { score: f32, tags: Vec<String> }`. -/
structure AugEntry where
  score : ℚ
  tags : List String

/-- The six heuristic coefficients, `struct Weights` from `config.yaml`. -/
structure Weights where
  W_TRAIT : ℚ
  W_ITEMS : ℚ
  W_STAGE : ℚ
  W_HP : ℚ
  W_CONFLICT : ℚ
  W_SYNERGY : ℚ

/-- The configuration record `struct Config { weights, trait_breakpoints: HashMap<i32,i32> }`. -/
structure Config where
  weights : Weights
  trait_breakpoints : List (Int × Int)

/-- Per-candidate detail record `struct Detail` accumulated by `score_one` for the explanation step. -/
structure Detail where
  base : ℚ := 0
  f_trait : ℚ := 0
  f_items : ℚ := 0
  f_stage : ℚ := 0
  f_hp : ℚ := 0
  f_syn : ℚ := 0
  f_conf : ℚ := 0

/-- Embedding of `fn tags_to_prefer_traits`: for every trait group whose name occurs among
the augment's tags, append that group's traits to the output. -/
def tags_to_prefer_traits (tags : List String) (groups : List (String × List String)) :
    List String :=
  groups.foldl (fun out g => if tags.any (fun t => t == g.1) then out ++ g.2 else out) []

/-- Embedding of `breaks.keys().collect()` followed by `sort_unstable()`: the sorted list of
keys of the `trait_breakpoints` map. -/
def sortedStops (breaks : List (Int × Int)) : List Int :=
  List.insertionSort (· ≤ ·) (breaks.map Prod.fst)

/-- The body of the loop of `fn proximity_to_next_tier` for a single preferred
trait `t`: if the state records a count for `t` and some stop is strictly
greater than it, contribute `1 / max(1, nxt - cur)`, else `0`. -/
def proximityContrib (traits : List (String × Int)) (stops : List Int) (t : String) : ℚ :=
  match traits.lookup t with
  | none => 0
  | some cur =>
    match stops.find? (fun bp => decide (cur < bp)) with
    | none => 0
    | some nxt =>
      let dist : Int := if nxt - cur < 1 then 1 else nxt - cur
      1 / (dist : ℚ)

/-- Embedding of `fn proximity_to_next_tier`: sum the per-trait contributions over the
preferred-trait list, then clamp to `[0,1]`. -/
def proximity_to_next_tier (traits : List (String × Int)) (breaks : List (Int × Int))
    (prefer : List String) : ℚ :=
  clampQ ((prefer.map (proximityContrib traits (sortedStops breaks))).sum) 0 1

/-- ASCII lowercasing of a string, embedding `str::to_lowercase` (all option
names involved are ASCII apart from U+2019, which lowercasing leaves fixed). -/
def toLower (s : String) : String := String.mk (s.data.map Char.toLower)

/-- The first fixed option family of `fn item_slam_bonus` (component grab-bag
style options, with the three punctuation variants of the Pandora name). -/
def grabBagNames : List String :=
  ["component grab bag", "portable forge", "pandora’s items", "pandoras items",
   "pandora\x27s items"]

/-- The second fixed option family of `fn item_slam_bonus` (Belt/Chain rewards). -/
def beltChainNames : List String :=
  ["sunfire board", "exiles", "triumphant return"]

/-- Embedding of `fn item_slam_bonus`: lowercase the augment name; grab-bag family scores
`Σ parts[k]·slam[k] / 20` clamped, Belt/Chain family scores
`(Belt·10 + Chain·9) / 15` clamped, anything else scores `0`. -/
def item_slam_bonus (parts : List (String × Int)) (augment : String)
    (slam : List (String × Int)) : ℚ :=
  let aug := toLower augment
  if grabBagNames.any (fun a => aug == a) then
    let raw : Int := (slam.map (fun kv => ((parts.lookup kv.1).getD 0) * kv.2)).sum
    clampQ ((raw : ℚ) / 20) 0 1
  else if beltChainNames.any (fun a => aug == a) then
    let raw : Int := ((parts.lookup "Belt").getD 0) * 10 + ((parts.lookup "Chain").getD 0) * 9
    clampQ ((raw : ℚ) / 15) 0 1
  else 0

/-- Value of a nonempty all-digit character list, `none` otherwise. -/
def digitsVal (cs : List Char) : Option Nat :=
  if cs.isEmpty then none
  else if cs.all Char.isDigit then
    some (cs.foldl (fun n c => 10 * n + (c.toNat - 48)) 0)
  else none

/-- Embedding of `str::parse::<i32>`: optional sign, one or more ASCII digits, value within
the `i32` range; anything else fails. -/
def parseI32 (s : String) : Option Int :=
  match s.data with
  | '+' :: rest => (digitsVal rest).bind
      (fun n => if n ≤ 2147483647 then some (n : Int) else none)
  | '-' :: rest => (digitsVal rest).bind
      (fun n => if n ≤ 2147483648 then some (-(n : Int)) else none)
  | cs => (digitsVal cs).bind
      (fun n => if n ≤ 2147483647 then some (n : Int) else none)

/-- Embedding of `stage.split('-').next()`: the prefix of the stage string before the first
`'-'` (the whole string when no `'-'` occurs). -/
def firstSegment (s : String) : String := String.mk (s.data.takeWhile (fun c => c != '-'))

/-- Embedding of `fn stage_urgency`: parse the round before `'-'`, default 2, return
`((round - 2) / 4).clamp(0, 1)`. -/
def stage_urgency (stage : String) : ℚ :=
  let s : Int := (parseI32 (firstSegment stage)).getD 2
  clampQ (((s - 2 : Int) : ℚ) / 4) 0 1

/-- Embedding of `fn hp_danger`: `((60 - hp) / 60).clamp(0, 1)`. -/
def hp_danger (hp : Int) : ℚ := clampQ ((((60 : Int) - hp) : ℚ) / 60) 0 1

/-- The conflict indicator computed inline in `score_one`:
`if taken.iter().any(|t| t == augment) { 1.0 } else { 0.0 }`. -/
def conflict_flag (taken : List String) (augment : String) : ℚ :=
  if taken.any (fun t => t == augment) then 1 else 0

/-- Modelled from the spec: `fn synergy_tag_bonus` is called by `score_one`
but its definition is absent from the repository sources.  Spec §4.6: for
every preferred attribute with a nonzero recorded count, add a fixed
per-attribute contribution, then clamp to `[0,1]`.  The spec does not fix the
magnitude of the constant; it is taken to be `1/10` here. -/
def synergyPerTrait : ℚ := 1 / 10

/-- Modelled from the spec: the synergy-tag heuristic, a constant bonus per
preferred attribute with a nonzero recorded count, clamped to `[0,1]`. -/
def synergy_tag_bonus (prefer : List String) (traits : List (String × Int)) : ℚ :=
  clampQ ((prefer.map (fun t =>
    match traits.lookup t with
    | some c => if c ≠ 0 then synergyPerTrait else 0
    | none => 0)).sum) 0 1

/-- Embedding of `fn score_one`: compose the base score and the six heuristics into
`(final_score, multiplier, detail)`. -/
def score_one (augment : String) (base_scores : List (String × AugEntry))
    (trait_groups : List (String × List String)) (components : List (String × Int))
    (cfg : Config) (stage : String) (hp : Int)
    (state_traits : List (String × Int)) (parts : List (String × Int))
    (taken : List String) : ℚ × ℚ × Detail :=
  let base := ((base_scores.lookup augment).map AugEntry.score).getD 60
  let tags := ((base_scores.lookup augment).map AugEntry.tags).getD []
  let prefer := tags_to_prefer_traits tags trait_groups
  let det : Detail :=
    { base := base
      f_trait := proximity_to_next_tier state_traits cfg.trait_breakpoints prefer
      f_items := item_slam_bonus parts augment components
      f_stage := stage_urgency stage
      f_hp := hp_danger hp
      f_conf := conflict_flag taken augment
      f_syn := synergy_tag_bonus prefer state_traits }
  let w := cfg.weights
  let mult := 1 + w.W_TRAIT * det.f_trait + w.W_ITEMS * det.f_items
    + w.W_STAGE * det.f_stage + w.W_HP * det.f_hp
    + w.W_SYNERGY * det.f_syn + w.W_CONFLICT * det.f_conf
  (base * mult, mult, det)

/-- One element of the `scored` vector of `main`. -/
structure ScoredEntry where
  name : String
  score : ℚ
  mult : ℚ
  det : Detail

/-- The ordering used by `scored.sort_by(|x,y| y.1.partial_cmp(&x.1).unwrap())`:
`a` goes before `b` when `b`'s final score is at most `a`'s. -/
def byScoreDesc (a b : ScoredEntry) : Prop := b.score ≤ a.score

instance : DecidableRel byScoreDesc :=
  fun a b => inferInstanceAs (Decidable (b.score ≤ a.score))

instance : IsTotal ScoredEntry byScoreDesc :=
  ⟨fun a b => le_total b.score a.score⟩

instance : IsTrans ScoredEntry byScoreDesc :=
  ⟨fun _ _ _ h h2 => le_trans h2 h⟩

/-- The ranking step of `main`: a stable sort of the scored candidates in
descending final-score order (Rust's `sort_by` is stable; any stable sort
consistent with a total comparator computes the same list, here realised by
insertion sort). -/
def rankScored (l : List ScoredEntry) : List ScoredEntry :=
  List.insertionSort byScoreDesc l

/-! ### The float layer used for the `partial_cmp` safety claim

Here `f32` arithmetic is modelled with exact rational finite values plus the
three IEEE non-finite elements NaN, `+∞` and `−∞`.  A finite result whose
magnitude exceeds the largest finite `f32` value overflows to the infinity of
its sign (a slight idealisation of round-to-nearest, which only moves the
exact overflow threshold, not whether overflow is reachable); NaN propagates,
`∞ + (−∞) = NaN` and `0 × ∞ = NaN` as in IEEE 754, and `partial_cmp` returns
`none` exactly when a NaN is involved. -/

/-- A model of an `f32` value: NaN, one of the two infinities, or a finite
value carried as an exact rational. -/
inductive F32 where
  | nan : F32
  | inf : F32
  | neginf : F32
  | fin : ℚ → F32

/-- The largest finite `f32` value, `f32::MAX = (2^24 − 1) · 2^104`. -/
def fMax : ℚ := (2 ^ 24 - 1) * 2 ^ 104

/-- Classification of an exact rational result: values past `±f32::MAX`
overflow to the corresponding infinity, everything else stays finite. -/
def F32.ofRat (q : ℚ) : F32 :=
  if q > fMax then F32.inf else if q < -fMax then F32.neginf else F32.fin q

/-- Addition on the float model: NaN propagates, `∞ + (−∞) = NaN`, an infinity
absorbs finite summands, and a finite sum overflows past `±f32::MAX`. -/
def F32.add : F32 → F32 → F32
  | F32.nan, _ => F32.nan
  | _, F32.nan => F32.nan
  | F32.inf, F32.neginf => F32.nan
  | F32.neginf, F32.inf => F32.nan
  | F32.inf, _ => F32.inf
  | _, F32.inf => F32.inf
  | F32.neginf, _ => F32.neginf
  | _, F32.neginf => F32.neginf
  | F32.fin a, F32.fin b => F32.ofRat (a + b)

/-- Multiplication on the float model: NaN propagates, `0 × ±∞ = NaN`, signed
infinities multiply by sign, and a finite product overflows past `±f32::MAX`. -/
def F32.mul : F32 → F32 → F32
  | F32.nan, _ => F32.nan
  | _, F32.nan => F32.nan
  | F32.inf, F32.inf => F32.inf
  | F32.inf, F32.neginf => F32.neginf
  | F32.neginf, F32.inf => F32.neginf
  | F32.neginf, F32.neginf => F32.inf
  | F32.inf, F32.fin b => if b > 0 then F32.inf else if b < 0 then F32.neginf else F32.nan
  | F32.fin a, F32.inf => if a > 0 then F32.inf else if a < 0 then F32.neginf else F32.nan
  | F32.neginf, F32.fin b => if b > 0 then F32.neginf else if b < 0 then F32.inf else F32.nan
  | F32.fin a, F32.neginf => if a > 0 then F32.neginf else if a < 0 then F32.inf else F32.nan
  | F32.fin a, F32.fin b => F32.ofRat (a * b)

/-- Whether a modelled float is a finite (non-NaN, non-infinite) number. -/
def F32.isFin : F32 → Bool
  | F32.fin _ => true
  | _ => false

/-- Total comparison of two rationals, the ordering `partial_cmp` returns on
two finite floats. -/
def cmpQ (a b : ℚ) : Ordering :=
  if a < b then Ordering.lt else if a = b then Ordering.eq else Ordering.gt

/-- Embedding of `f32::partial_cmp`: `none` exactly when a NaN is involved;
infinities compare totally with everything else, as in IEEE 754. -/
def F32.pcmp : F32 → F32 → Option Ordering
  | F32.nan, _ => none
  | _, F32.nan => none
  | F32.fin a, F32.fin b => some (cmpQ a b)
  | F32.inf, F32.inf => some Ordering.eq
  | F32.inf, _ => some Ordering.gt
  | F32.neginf, F32.neginf => some Ordering.eq
  | F32.neginf, _ => some Ordering.lt
  | _, F32.inf => some Ordering.lt
  | _, F32.neginf => some Ordering.gt

/-- The six weights of `score_one`, at the float-model level. -/
structure WeightsF32 where
  W_TRAIT : F32
  W_ITEMS : F32
  W_STAGE : F32
  W_HP : F32
  W_CONFLICT : F32
  W_SYNERGY : F32

/-- The multiplier computation of `score_one` at the float-model level, with
the same left-to-right association as the Rust expression. -/
def multF32 (w : WeightsF32) (fT fI fS fH fY fC : F32) : F32 :=
  ((((((F32.fin 1).add (w.W_TRAIT.mul fT)).add (w.W_ITEMS.mul fI)).add
    (w.W_STAGE.mul fS)).add (w.W_HP.mul fH)).add
    (w.W_SYNERGY.mul fY)).add (w.W_CONFLICT.mul fC)

/-- The final score `base * mult` of `score_one`, at the float-model level. -/
def finalF32 (base : F32) (w : WeightsF32) (fT fI fS fH fY fC : F32) : F32 :=
  base.mul (multF32 w fT fI fS fH fY fC)

/-! ### Reference formulations used by the claims about `proximity_to_next_tier` -/

/-- The attribute-proximity formula as claim C1 words it: the candidate
breakpoints are the distinct VALUES of the breakpoint map, sorted ascending
(the per-attribute contribution is then the one the code computes). -/
def proximitySpecValuesC1 (traits : List (String × Int)) (breaks : List (Int × Int))
    (prefer : List String) : ℚ :=
  clampQ ((prefer.map (proximityContrib traits
    (List.insertionSort (· ≤ ·) ((breaks.map Prod.snd).dedup)))).sum) 0 1

/-- The amended attribute-proximity formula: the candidate breakpoints are the
distinct KEYS of the breakpoint map, sorted ascending. -/
def proximityAmendedC1 (traits : List (String × Int)) (breaks : List (Int × Int))
    (prefer : List String) : ℚ :=
  clampQ ((prefer.map (proximityContrib traits
    (List.insertionSort (· ≤ ·) ((breaks.map Prod.fst).dedup)))).sum) 0 1

/-! ### Helper lemmas -/

theorem clampQ_nonneg (x : ℚ) : 0 ≤ clampQ x 0 1 := by
  unfold clampQ
  split_ifs with h1 h2 <;> linarith

theorem clampQ_le_one (x : ℚ) : clampQ x 0 1 ≤ 1 := by
  unfold clampQ
  split_ifs with h1 h2 <;> linarith

theorem clampQ_eq_zero_of_nonpos {x : ℚ} (h : x ≤ 0) : clampQ x 0 1 = 0 := by
  unfold clampQ
  split_ifs with h1 h2 <;> linarith

theorem clampQ_eq_one_of_one_le {x : ℚ} (h : 1 ≤ x) : clampQ x 0 1 = 1 := by
  unfold clampQ
  split_ifs with h1 h2 <;> linarith

theorem find?_eq_filter_head? {α : Type} (p : α → Bool) :
    ∀ l : List α, l.find? p = (l.filter p).head?
  | [] => rfl
  | a :: t => by
    by_cases h : p a
    · rw [List.find?_cons_of_pos _ h, List.filter_cons_of_pos h]
      rfl
    · rw [List.find?_cons_of_neg _ (by simpa using h),
        List.filter_cons_of_neg (by simpa using h)]
      exact find?_eq_filter_head? p t

theorem head?_eq_of_sorted_of_mem_iff :
    ∀ {l₁ l₂ : List Int}, l₁.Sorted (· ≤ ·) → l₂.Sorted (· ≤ ·) →
      (∀ x, x ∈ l₁ ↔ x ∈ l₂) → l₁.head? = l₂.head?
  | [], [], _, _, _ => rfl
  | [], b :: t₂, _, _, hm => absurd ((hm b).2 (List.mem_cons_self b t₂)) (List.not_mem_nil b)
  | a :: t₁, [], _, _, hm => absurd ((hm a).1 (List.mem_cons_self a t₁)) (List.not_mem_nil a)
  | a :: t₁, b :: t₂, h₁, h₂, hm => by
    have hmin₁ : ∀ x ∈ a :: t₁, a ≤ x := by
      intro x hx
      rcases List.mem_cons.1 hx with h | h
      · exact h ▸ le_refl a
      · exact List.rel_of_sorted_cons h₁ x h
    have hmin₂ : ∀ x ∈ b :: t₂, b ≤ x := by
      intro x hx
      rcases List.mem_cons.1 hx with h | h
      · exact h ▸ le_refl b
      · exact List.rel_of_sorted_cons h₂ x h
    have hab : a ≤ b := hmin₁ b ((hm b).2 (List.mem_cons_self b t₂))
    have hba : b ≤ a := hmin₂ a ((hm a).1 (List.mem_cons_self a t₁))
    simp [le_antisymm hab hba]

theorem find?_eq_of_sorted_of_mem_iff {l₁ l₂ : List Int} (p : Int → Bool)
    (h₁ : l₁.Sorted (· ≤ ·)) (h₂ : l₂.Sorted (· ≤ ·))
    (hm : ∀ x, x ∈ l₁ ↔ x ∈ l₂) : l₁.find? p = l₂.find? p := by
  rw [find?_eq_filter_head?, find?_eq_filter_head?]
  apply head?_eq_of_sorted_of_mem_iff
  · exact List.Pairwise.sublist (List.filter_sublist l₁) h₁
  · exact List.Pairwise.sublist (List.filter_sublist l₂) h₂
  · intro x
    simp only [List.mem_filter]
    exact and_congr_left (fun _ => hm x)

theorem proximityContrib_congr_stops (traits : List (String × Int)) {s₁ s₂ : List Int}
    (hfind : ∀ c : Int, s₁.find? (fun bp => decide (c < bp))
      = s₂.find? (fun bp => decide (c < bp))) (t : String) :
    proximityContrib traits s₁ t = proximityContrib traits s₂ t := by
  unfold proximityContrib
  cases traits.lookup t with
  | none => rfl
  | some cur =>
    dsimp only
    rw [hfind cur]

/-- C1 counterexample: on the breakpoint map sending key 1 to value 3, attribute count 2,
the code (which scans the map's keys) scores 0, while the claimed formula
(which scans the map's values) scores 1. -/
theorem C1_counterexample :
    proximity_to_next_tier [("A", 2)] [(1, 3)] ["A"]
        ≠ proximitySpecValuesC1 [("A", 2)] [(1, 3)] ["A"] ∧
    proximity_to_next_tier [("A", 2)] [(1, 3)] ["A"] = 0 ∧
    proximitySpecValuesC1 [("A", 2)] [(1, 3)] ["A"] = 1 := by
  have h1 : proximity_to_next_tier [("A", 2)] [(1, 3)] ["A"] = clampQ ((0 : ℚ) + 0) 0 1 := rfl
  have h2 : proximitySpecValuesC1 [("A", 2)] [(1, 3)] ["A"]
      = clampQ (1 / ((1 : Int) : ℚ) + 0) 0 1 := rfl
  rw [h1, h2]
  norm_num [clampQ]

/-- C1 (amended): the attribute-proximity heuristic collects the distinct
threshold KEYS of the breakpoint map (not its mapped values), sorts them
ascending, and for each preferred attribute with recorded count `c` adds
`1/max(1, b − c)` for `b` the smallest key strictly greater than `c`;
attributes without a count or without a strictly larger key contribute
nothing, and the sum is clamped to `[0,1]`. -/
theorem C1_amended_thm (traits : List (String × Int)) (breaks : List (Int × Int))
    (prefer : List String) :
    proximity_to_next_tier traits breaks prefer = proximityAmendedC1 traits breaks prefer := by
  unfold proximity_to_next_tier proximityAmendedC1
  have hfind : ∀ c : Int,
      (sortedStops breaks).find? (fun bp => decide (c < bp))
        = (List.insertionSort (· ≤ ·) ((breaks.map Prod.fst).dedup)).find?
            (fun bp => decide (c < bp)) := by
    intro c
    apply find?_eq_of_sorted_of_mem_iff
    · exact List.sorted_insertionSort _ _
    · exact List.sorted_insertionSort _ _
    · intro x
      rw [sortedStops, (List.perm_insertionSort _ _).mem_iff,
        (List.perm_insertionSort _ _).mem_iff, List.mem_dedup]
  have hmap : prefer.map (proximityContrib traits (sortedStops breaks))
      = prefer.map (proximityContrib traits
          (List.insertionSort (· ≤ ·) ((breaks.map Prod.fst).dedup))) :=
    List.map_congr_left (fun t _ => proximityContrib_congr_stops traits hfind t)
  rw [hmap]

/-- C2: the aggregation heuristics are order-independent: permuting the
preferred-attribute list, the iteration order of the breakpoint map, and the
iteration order of the component-weight map leaves the attribute-proximity and
item-slam results unchanged. -/
theorem C2_order_independence (traits parts : List (String × Int))
    (breaks breaks' : List (Int × Int)) (prefer prefer' : List String)
    (aug : String) (slam slam' : List (String × Int))
    (hpp : List.Perm prefer prefer') (hb : List.Perm breaks breaks')
    (hs : List.Perm slam slam') :
    proximity_to_next_tier traits breaks prefer
        = proximity_to_next_tier traits breaks' prefer' ∧
    item_slam_bonus parts aug slam = item_slam_bonus parts aug slam' := by
  constructor
  · have hstops : sortedStops breaks = sortedStops breaks' := by
      unfold sortedStops
      apply List.eq_of_perm_of_sorted (r := (· ≤ ·))
      · exact (List.perm_insertionSort _ _).trans
          ((hb.map Prod.fst).trans (List.perm_insertionSort _ _).symm)
      · exact List.sorted_insertionSort _ _
      · exact List.sorted_insertionSort _ _
    unfold proximity_to_next_tier
    rw [hstops, (hpp.map (proximityContrib traits (sortedStops breaks'))).sum_eq]
  · unfold item_slam_bonus
    have hraw : (slam.map (fun kv => ((parts.lookup kv.1).getD 0) * kv.2)).sum
        = (slam'.map (fun kv => ((parts.lookup kv.1).getD 0) * kv.2)).sum :=
      (hs.map _).sum_eq
    simp only [hraw]

/-- Witness for C2 at concrete permuted inputs. -/
theorem C2_order_independence_witness :
    proximity_to_next_tier [("A", 2)] [(2, 0), (4, 0)] ["A", "B"]
        = proximity_to_next_tier [("A", 2)] [(4, 0), (2, 0)] ["B", "A"] ∧
    item_slam_bonus [("Belt", 1)] "Portable Forge" [("Belt", 5), ("Rod", 3)]
        = item_slam_bonus [("Belt", 1)] "Portable Forge" [("Rod", 3), ("Belt", 5)] :=
  C2_order_independence [("A", 2)] [("Belt", 1)] [(2, 0), (4, 0)] [(4, 0), (2, 0)]
    ["A", "B"] ["B", "A"] "Portable Forge" [("Belt", 5), ("Rod", 3)]
    [("Rod", 3), ("Belt", 5)] (by decide) (by decide) (by decide)

/-- C3: `score_one` always evaluates all six heuristics, the multiplier is
`1 + Σ coefficient·heuristic` over all six, and the final score is
`base · multiplier`, with no rounding and nothing omitted. -/
theorem C3_composer (augment : String) (base_scores : List (String × AugEntry))
    (trait_groups : List (String × List String)) (components : List (String × Int))
    (cfg : Config) (stage : String) (hp : Int) (state_traits : List (String × Int))
    (parts : List (String × Int)) (taken : List String) :
    (score_one augment base_scores trait_groups components cfg stage hp
        state_traits parts taken).2.1
      = 1
        + cfg.weights.W_TRAIT * (score_one augment base_scores trait_groups components
            cfg stage hp state_traits parts taken).2.2.f_trait
        + cfg.weights.W_ITEMS * (score_one augment base_scores trait_groups components
            cfg stage hp state_traits parts taken).2.2.f_items
        + cfg.weights.W_STAGE * (score_one augment base_scores trait_groups components
            cfg stage hp state_traits parts taken).2.2.f_stage
        + cfg.weights.W_HP * (score_one augment base_scores trait_groups components
            cfg stage hp state_traits parts taken).2.2.f_hp
        + cfg.weights.W_SYNERGY * (score_one augment base_scores trait_groups components
            cfg stage hp state_traits parts taken).2.2.f_syn
        + cfg.weights.W_CONFLICT * (score_one augment base_scores trait_groups components
            cfg stage hp state_traits parts taken).2.2.f_conf ∧
    (score_one augment base_scores trait_groups components cfg stage hp
        state_traits parts taken).1
      = (score_one augment base_scores trait_groups components cfg stage hp
          state_traits parts taken).2.2.base
        * (score_one augment base_scores trait_groups components cfg stage hp
            state_traits parts taken).2.1 ∧
    (score_one augment base_scores trait_groups components cfg stage hp
        state_traits parts taken).2.2.base
      = ((base_scores.lookup augment).map AugEntry.score).getD 60 ∧
    (score_one augment base_scores trait_groups components cfg stage hp
        state_traits parts taken).2.2.f_trait
      = proximity_to_next_tier state_traits cfg.trait_breakpoints
          (tags_to_prefer_traits (((base_scores.lookup augment).map AugEntry.tags).getD [])
            trait_groups) ∧
    (score_one augment base_scores trait_groups components cfg stage hp
        state_traits parts taken).2.2.f_items = item_slam_bonus parts augment components ∧
    (score_one augment base_scores trait_groups components cfg stage hp
        state_traits parts taken).2.2.f_stage = stage_urgency stage ∧
    (score_one augment base_scores trait_groups components cfg stage hp
        state_traits parts taken).2.2.f_hp = hp_danger hp ∧
    (score_one augment base_scores trait_groups components cfg stage hp
        state_traits parts taken).2.2.f_syn
      = synergy_tag_bonus
          (tags_to_prefer_traits (((base_scores.lookup augment).map AugEntry.tags).getD [])
            trait_groups) state_traits ∧
    (score_one augment base_scores trait_groups components cfg stage hp
        state_traits parts taken).2.2.f_conf = conflict_flag taken augment :=
  ⟨rfl, rfl, rfl, rfl, rfl, rfl, rfl, rfl, rfl⟩

theorem filter_score_orderedInsert (q : ℚ) (x : ScoredEntry) :
    ∀ l : List ScoredEntry,
      (List.orderedInsert byScoreDesc x l).filter (fun e => decide (e.score = q))
        = if x.score = q then x :: l.filter (fun e => decide (e.score = q))
          else l.filter (fun e => decide (e.score = q))
  | [] => by
    by_cases hx : x.score = q <;> simp [List.orderedInsert, List.filter, hx]
  | b :: t => by
    by_cases hr : byScoreDesc x b
    · rw [List.orderedInsert, if_pos hr]
      by_cases hx : x.score = q <;> by_cases hb2 : b.score = q <;>
        simp [List.filter_cons, hx, hb2]
    · rw [List.orderedInsert, if_neg hr, List.filter_cons,
        filter_score_orderedInsert q x t]
      have hxb : x.score < b.score := not_le.mp hr
      by_cases hx : x.score = q
      · have hb2 : ¬ (b.score = q) := hx ▸ (ne_of_gt hxb)
        simp [hx, hb2]
      · by_cases hb2 : b.score = q <;> simp [hx, hb2]

theorem filter_score_rankScored (q : ℚ) : ∀ l : List ScoredEntry,
    (rankScored l).filter (fun e => decide (e.score = q))
      = l.filter (fun e => decide (e.score = q))
  | [] => rfl
  | a :: t => by
    have ih := filter_score_rankScored q t
    unfold rankScored at ih ⊢
    rw [List.insertionSort, filter_score_orderedInsert q a (List.insertionSort byScoreDesc t),
      ih]
    by_cases ha : a.score = q <;> simp [List.filter_cons, ha]

/-- C4: the ranked output is a permutation of the input scored candidates,
sorted descending by final score, and stable: for every score value the
candidates carrying exactly that score appear in their original relative
input order. -/
theorem C4_ranking (l : List ScoredEntry) :
    List.Sorted byScoreDesc (rankScored l) ∧ List.Perm (rankScored l) l ∧
    ∀ q : ℚ, (rankScored l).filter (fun e => decide (e.score = q))
      = l.filter (fun e => decide (e.score = q)) :=
  ⟨List.sorted_insertionSort byScoreDesc l, List.perm_insertionSort byScoreDesc l,
    fun q => filter_score_rankScored q l⟩

theorem any_beq_eq_true_iff (s : String) (l : List String) :
    (l.any (fun a => s == a)) = true ↔ s ∈ l := by
  simp [List.any_eq_true]

theorem grabBag_beltChain_disjoint {s : String} (h : s ∈ beltChainNames) :
    s ∉ grabBagNames := by
  simp only [beltChainNames, List.mem_cons, List.not_mem_nil, or_false] at h
  rcases h with rfl | rfl | rfl <;> decide

theorem item_slam_grabBag (parts slam : List (String × Int)) (aug : String)
    (h : toLower aug ∈ grabBagNames) :
    item_slam_bonus parts aug slam
      = clampQ ((((slam.map (fun kv => ((parts.lookup kv.1).getD 0) * kv.2)).sum : Int) : ℚ)
          / 20) 0 1 := by
  simp only [item_slam_bonus]
  rw [if_pos ((any_beq_eq_true_iff (toLower aug) grabBagNames).2 h)]

theorem item_slam_beltChain (parts slam : List (String × Int)) (aug : String)
    (h : toLower aug ∈ beltChainNames) :
    item_slam_bonus parts aug slam
      = clampQ (((((parts.lookup "Belt").getD 0) * 10
          + ((parts.lookup "Chain").getD 0) * 9 : Int) : ℚ) / 15) 0 1 := by
  simp only [item_slam_bonus]
  rw [if_neg (fun hc => grabBag_beltChain_disjoint h
      ((any_beq_eq_true_iff (toLower aug) grabBagNames).1 hc)),
    if_pos ((any_beq_eq_true_iff (toLower aug) beltChainNames).2 h)]

theorem item_slam_other (parts slam : List (String × Int)) (aug : String)
    (h1 : toLower aug ∉ grabBagNames) (h2 : toLower aug ∉ beltChainNames) :
    item_slam_bonus parts aug slam = 0 := by
  simp only [item_slam_bonus]
  rw [if_neg (fun hc => h1 ((any_beq_eq_true_iff (toLower aug) grabBagNames).1 hc)),
    if_neg (fun hc => h2 ((any_beq_eq_true_iff (toLower aug) beltChainNames).1 hc))]

/-- C5: the item-slam heuristic matches the lowercased candidate name against
the two fixed families (with the three Pandora punctuation variants listed as
grab-bag synonyms); grab-bag names score `clamp(Σ parts·weight / 20)`,
Belt/Chain names score `clamp((Belt·10 + Chain·9) / 15)`, all other names
score exactly 0, and with components `{Belt: 2, Chain: 1}` the candidate
"Sunfire Board" scores `min(1, 29/15) = 1`. -/
theorem C5_item_slam (parts slam : List (String × Int)) (aug : String) :
    (toLower aug ∈ grabBagNames →
      item_slam_bonus parts aug slam
        = clampQ ((((slam.map (fun kv => ((parts.lookup kv.1).getD 0) * kv.2)).sum : Int) : ℚ)
            / 20) 0 1) ∧
    (toLower aug ∈ beltChainNames →
      item_slam_bonus parts aug slam
        = clampQ (((((parts.lookup "Belt").getD 0) * 10
            + ((parts.lookup "Chain").getD 0) * 9 : Int) : ℚ) / 15) 0 1) ∧
    (toLower aug ∉ grabBagNames → toLower aug ∉ beltChainNames →
      item_slam_bonus parts aug slam = 0) ∧
    item_slam_bonus [("Belt", 2), ("Chain", 1)] "Sunfire Board" slam = 1 := by
  refine ⟨item_slam_grabBag parts slam aug, item_slam_beltChain parts slam aug,
    item_slam_other parts slam aug, ?_⟩
  have h : item_slam_bonus [("Belt", 2), ("Chain", 1)] "Sunfire Board" slam
      = clampQ (((29 : Int) : ℚ) / 15) 0 1 := rfl
  rw [h]
  norm_num [clampQ]

/-- Witness for C5: a grab-bag-family candidate evaluated at a concrete
component inventory. -/
theorem C5_item_slam_witness :
    item_slam_bonus [("Belt", 1), ("Rod", 2)] "Component Grab Bag" [("Belt", 5), ("Rod", 3)]
      = clampQ (((((([("Belt", 5), ("Rod", 3)] : List (String × Int))).map
          (fun kv => (((([("Belt", 1), ("Rod", 2)] : List (String × Int))).lookup kv.1).getD 0)
            * kv.2)).sum : Int) : ℚ) / 20) 0 1 :=
  (C5_item_slam [("Belt", 1), ("Rod", 2)] [("Belt", 5), ("Rod", 3)]
    "Component Grab Bag").1 (by decide)

/-- C10: in the Belt/Chain family only the component entries whose key is
exactly "Belt" or exactly "Chain" matter (the heuristic's value depends on the
component map only through those two case-sensitive lookups), and a component
map holding only the lowercase key "belt" scores 0 for "Sunfire Board". -/
theorem C10_beltChain_keys (parts parts2 slam : List (String × Int)) (aug : String)
    (h : toLower aug ∈ beltChainNames)
    (hB : parts.lookup "Belt" = parts2.lookup "Belt")
    (hC : parts.lookup "Chain" = parts2.lookup "Chain") :
    item_slam_bonus parts aug slam = item_slam_bonus parts2 aug slam ∧
    item_slam_bonus [("belt", 5)] "Sunfire Board" [] = 0 := by
  constructor
  · rw [item_slam_beltChain parts slam aug h, item_slam_beltChain parts2 slam aug h, hB, hC]
  · have h0 : item_slam_bonus [("belt", 5)] "Sunfire Board" []
        = clampQ (((0 : Int) : ℚ) / 15) 0 1 := rfl
    rw [h0]
    norm_num [clampQ]

/-- Witness for C10: extending the component map with an unrelated key leaves
the Belt/Chain score unchanged. -/
theorem C10_beltChain_keys_witness :
    item_slam_bonus [("Belt", 3)] "Exiles" []
      = item_slam_bonus [("Belt", 3), ("Sword", 2)] "Exiles" [] :=
  (C10_beltChain_keys [("Belt", 3)] [("Belt", 3), ("Sword", 2)] [] "Exiles"
    (by decide) (by decide) (by decide)).1

/-- C6: every heuristic except conflict yields a value in `[0,1]` on all
inputs, the conflict indicator is exactly 0 or 1, and the aggregation
heuristics yield 0 (not an error) on empty attribute maps, empty component
maps and empty preferred-attribute lists. -/
theorem C6_bounds (traits parts slam : List (String × Int)) (breaks : List (Int × Int))
    (prefer taken : List String) (aug stage : String) (hp : Int) :
    (0 ≤ proximity_to_next_tier traits breaks prefer
      ∧ proximity_to_next_tier traits breaks prefer ≤ 1) ∧
    (0 ≤ item_slam_bonus parts aug slam ∧ item_slam_bonus parts aug slam ≤ 1) ∧
    (0 ≤ stage_urgency stage ∧ stage_urgency stage ≤ 1) ∧
    (0 ≤ hp_danger hp ∧ hp_danger hp ≤ 1) ∧
    (0 ≤ synergy_tag_bonus prefer traits ∧ synergy_tag_bonus prefer traits ≤ 1) ∧
    (conflict_flag taken aug = 0 ∨ conflict_flag taken aug = 1) ∧
    proximity_to_next_tier [] breaks prefer = 0 ∧
    proximity_to_next_tier traits breaks [] = 0 ∧
    item_slam_bonus [] aug slam = 0 ∧
    synergy_tag_bonus [] traits = 0 ∧
    synergy_tag_bonus prefer [] = 0 := by
  refine ⟨⟨clampQ_nonneg _, clampQ_le_one _⟩, ?_, ⟨clampQ_nonneg _, clampQ_le_one _⟩,
    ⟨clampQ_nonneg _, clampQ_le_one _⟩, ⟨clampQ_nonneg _, clampQ_le_one _⟩,
    ?_, ?_, ?_, ?_, ?_, ?_⟩
  · simp only [item_slam_bonus]
    split_ifs
    · exact ⟨clampQ_nonneg _, clampQ_le_one _⟩
    · exact ⟨clampQ_nonneg _, clampQ_le_one _⟩
    · norm_num
  · unfold conflict_flag
    split_ifs <;> simp
  · unfold proximity_to_next_tier
    have hz : (prefer.map (proximityContrib [] (sortedStops breaks))).sum = 0 := by
      apply List.sum_eq_zero
      intro x hx
      obtain ⟨t, _, rfl⟩ := List.mem_map.1 hx
      rfl
    rw [hz]
    norm_num [clampQ]
  · unfold proximity_to_next_tier
    norm_num [clampQ]
  · simp only [item_slam_bonus]
    split_ifs
    · have hz : (slam.map
          (fun kv => ((List.lookup kv.1 ([] : List (String × Int))).getD 0) * kv.2)).sum
          = (0 : Int) := by
        apply List.sum_eq_zero
        intro x hx
        obtain ⟨kv, _, rfl⟩ := List.mem_map.1 hx
        simp [List.lookup]
      rw [hz]
      norm_num [clampQ]
    · norm_num [List.lookup, clampQ]
    · rfl
  · unfold synergy_tag_bonus
    norm_num [clampQ]
  · unfold synergy_tag_bonus
    have hz : (prefer.map (fun t =>
        match List.lookup t ([] : List (String × Int)) with
        | some c => if c ≠ 0 then synergyPerTrait else 0
        | none => 0)).sum = (0 : ℚ) := by
      apply List.sum_eq_zero
      intro x hx
      obtain ⟨t, _, rfl⟩ := List.mem_map.1 hx
      rfl
    rw [hz]
    norm_num [clampQ]

/-- C7: the stage-urgency heuristic equals `clamp((round − 2)/4, 0, 1)` where
`round` is the integer parsed from the segment before `'-'`, defaulting to 2
when unparseable; rounds at or below 2 give 0, rounds at or above 6 give 1,
and "2-1" ↦ 0, "4-1" ↦ 1/2, "6-4" ↦ 1. -/
theorem C7_stage (stage : String) :
    stage_urgency stage
        = clampQ (((((parseI32 (firstSegment stage)).getD 2) - 2 : Int) : ℚ) / 4) 0 1 ∧
    ((parseI32 (firstSegment stage)).getD 2 ≤ 2 → stage_urgency stage = 0) ∧
    (6 ≤ (parseI32 (firstSegment stage)).getD 2 → stage_urgency stage = 1) ∧
    (parseI32 (firstSegment stage) = none → stage_urgency stage = 0) ∧
    stage_urgency "2-1" = 0 ∧ stage_urgency "4-1" = 1 / 2 ∧ stage_urgency "6-4" = 1 := by
  have hchar : stage_urgency stage
      = clampQ (((((parseI32 (firstSegment stage)).getD 2) - 2 : Int) : ℚ) / 4) 0 1 := rfl
  refine ⟨hchar, ?_, ?_, ?_, ?_, ?_, ?_⟩
  · intro h
    rw [hchar]
    apply clampQ_eq_zero_of_nonpos
    have h2 : ((((parseI32 (firstSegment stage)).getD 2) - 2 : Int) : ℚ) ≤ 0 := by
      exact_mod_cast sub_nonpos.mpr h
    linarith
  · intro h
    rw [hchar]
    apply clampQ_eq_one_of_one_le
    have h2 : (4 : ℚ) ≤ ((((parseI32 (firstSegment stage)).getD 2) - 2 : Int) : ℚ) := by
      exact_mod_cast (by omega : (4 : Int) ≤ (parseI32 (firstSegment stage)).getD 2 - 2)
    linarith
  · intro h
    rw [hchar, h]
    norm_num [clampQ]
  · have h : stage_urgency "2-1" = clampQ (((0 : Int) : ℚ) / 4) 0 1 := rfl
    rw [h]
    norm_num [clampQ]
  · have h : stage_urgency "4-1" = clampQ (((2 : Int) : ℚ) / 4) 0 1 := rfl
    rw [h]
    norm_num [clampQ]
  · have h : stage_urgency "6-4" = clampQ (((4 : Int) : ℚ) / 4) 0 1 := rfl
    rw [h]
    norm_num [clampQ]

/-- Witness for C7: the round-at-most-2 and round-at-least-6 clauses at
concrete stages. -/
theorem C7_stage_witness : stage_urgency "1-3" = 0 ∧ stage_urgency "9-9" = 1 :=
  ⟨(C7_stage "1-3").2.1 (by decide), (C7_stage "9-9").2.2.1 (by decide)⟩

theorem tags_to_prefer_traits_nil (groups : List (String × List String)) :
    tags_to_prefer_traits [] groups = [] := by
  unfold tags_to_prefer_traits
  induction groups with
  | nil => rfl
  | cons g gs ih => exact ih

/-- C8: a candidate identifier absent from the catalog is still scored: the
base score falls back to 60, the tag list (hence the preferred-attribute set)
is empty, and the final score is `60 · multiplier`. -/
theorem C8_unknown_augment (augment : String) (base_scores : List (String × AugEntry))
    (trait_groups : List (String × List String)) (components : List (String × Int))
    (cfg : Config) (stage : String) (hp : Int) (state_traits parts : List (String × Int))
    (taken : List String) (h : base_scores.lookup augment = none) :
    (score_one augment base_scores trait_groups components cfg stage hp
        state_traits parts taken).2.2.base = 60 ∧
    tags_to_prefer_traits (((base_scores.lookup augment).map AugEntry.tags).getD [])
        trait_groups = [] ∧
    (score_one augment base_scores trait_groups components cfg stage hp
        state_traits parts taken).2.2.f_trait
      = proximity_to_next_tier state_traits cfg.trait_breakpoints [] ∧
    (score_one augment base_scores trait_groups components cfg stage hp
        state_traits parts taken).2.2.f_syn = synergy_tag_bonus [] state_traits ∧
    (score_one augment base_scores trait_groups components cfg stage hp
        state_traits parts taken).1
      = 60 * (score_one augment base_scores trait_groups components cfg stage hp
          state_traits parts taken).2.1 := by
  have hbase : ((base_scores.lookup augment).map AugEntry.score).getD 60 = 60 := by
    rw [h]
    rfl
  have htags : ((base_scores.lookup augment).map AugEntry.tags).getD [] = ([] : List String) := by
    rw [h]
    rfl
  have hpref : tags_to_prefer_traits
      (((base_scores.lookup augment).map AugEntry.tags).getD []) trait_groups = [] := by
    rw [htags]
    exact tags_to_prefer_traits_nil trait_groups
  refine ⟨hbase, hpref, ?_, ?_, ?_⟩
  · show proximity_to_next_tier state_traits cfg.trait_breakpoints
        (tags_to_prefer_traits (((base_scores.lookup augment).map AugEntry.tags).getD [])
          trait_groups)
      = proximity_to_next_tier state_traits cfg.trait_breakpoints []
    rw [hpref]
  · show synergy_tag_bonus
        (tags_to_prefer_traits (((base_scores.lookup augment).map AugEntry.tags).getD [])
          trait_groups) state_traits
      = synergy_tag_bonus [] state_traits
    rw [hpref]
  · have hsc : (score_one augment base_scores trait_groups components cfg stage hp
          state_traits parts taken).1
        = (score_one augment base_scores trait_groups components cfg stage hp
            state_traits parts taken).2.2.base
          * (score_one augment base_scores trait_groups components cfg stage hp
              state_traits parts taken).2.1 := rfl
    rw [hsc]
    have h1 : (score_one augment base_scores trait_groups components cfg stage hp
        state_traits parts taken).2.2.base = 60 := hbase
    rw [h1]

/-- Witness for C8: scoring an identifier against an empty catalog. -/
theorem C8_unknown_augment_witness :
    (score_one "Mystery" [] [] [] ⟨⟨1, 1, 1, 1, 1, 1⟩, []⟩ "3-2" 60 [] [] []).2.2.base = 60 :=
  (C8_unknown_augment "Mystery" [] [] [] ⟨⟨1, 1, 1, 1, 1, 1⟩, []⟩ "3-2" 60 [] [] [] rfl).1

theorem F32.ofRat_of_abs_le {q : ℚ} (h : |q| ≤ fMax) : F32.ofRat q = F32.fin q := by
  unfold F32.ofRat
  rw [if_neg (not_lt.mpr (abs_le.1 h).2), if_neg (not_lt.mpr (abs_le.1 h).1)]

/-- C9 counterexample: with base score `0`, `W_TRAIT = W_ITEMS = f32::MAX`,
`f_trait = f_items = 1` and everything else `0` — all finite, non-NaN inputs,
with the heuristic values inside `[0,1]` — the multiplier overflows to `+∞`
and the final score `0 × ∞` is NaN, so `partial_cmp` returns `none` and the
`unwrap` in `main`'s sort comparator panics: the claim's finiteness
precondition does not make the composed final score non-NaN. -/
theorem C9_counterexample :
    (F32.fin fMax).isFin = true ∧ (F32.fin (0 : ℚ)).isFin = true ∧
    (F32.fin (1 : ℚ)).isFin = true ∧
    finalF32 (F32.fin 0)
        ⟨F32.fin fMax, F32.fin fMax, F32.fin 0, F32.fin 0, F32.fin 0, F32.fin 0⟩
        (F32.fin 1) (F32.fin 1) (F32.fin 0) (F32.fin 0) (F32.fin 0) (F32.fin 0)
      = F32.nan ∧
    (F32.pcmp
      (finalF32 (F32.fin 0)
        ⟨F32.fin fMax, F32.fin fMax, F32.fin 0, F32.fin 0, F32.fin 0, F32.fin 0⟩
        (F32.fin 1) (F32.fin 1) (F32.fin 0) (F32.fin 0) (F32.fin 0) (F32.fin 0))
      (F32.fin 60)).isSome = false := by
  have hMaxPos : (0 : ℚ) < fMax := by norm_num [fMax]
  have eM : (F32.fin fMax).mul (F32.fin 1) = F32.fin fMax := by
    show F32.ofRat (fMax * 1) = F32.fin fMax
    rw [mul_one]
    exact F32.ofRat_of_abs_le (by rw [abs_of_pos hMaxPos])
  have e0 : (F32.fin (0 : ℚ)).mul (F32.fin 0) = F32.fin 0 := by
    show F32.ofRat ((0 : ℚ) * 0) = F32.fin 0
    rw [mul_zero]
    exact F32.ofRat_of_abs_le (by rw [abs_zero]; exact le_of_lt hMaxPos)
  have a1 : (F32.fin (1 : ℚ)).add (F32.fin fMax) = F32.inf := by
    show F32.ofRat (1 + fMax) = F32.inf
    unfold F32.ofRat
    rw [if_pos (by linarith)]
  have a2 : F32.inf.add (F32.fin fMax) = F32.inf := rfl
  have a3 : F32.inf.add (F32.fin (0 : ℚ)) = F32.inf := rfl
  have f1 : (F32.fin (0 : ℚ)).mul F32.inf = F32.nan := by
    show (if (0 : ℚ) > 0 then F32.inf else if (0 : ℚ) < 0 then F32.neginf else F32.nan)
      = F32.nan
    rw [if_neg (lt_irrefl (0 : ℚ)), if_neg (lt_irrefl (0 : ℚ))]
  have hnan : finalF32 (F32.fin 0)
      ⟨F32.fin fMax, F32.fin fMax, F32.fin 0, F32.fin 0, F32.fin 0, F32.fin 0⟩
      (F32.fin 1) (F32.fin 1) (F32.fin 0) (F32.fin 0) (F32.fin 0) (F32.fin 0)
      = F32.nan := by
    unfold finalF32 multF32
    dsimp only
    rw [eM, e0, a1, a2, a3, a3, a3, a3, f1]
  exact ⟨rfl, rfl, rfl, hnan, by rw [hnan]; rfl⟩

/-- C9 (amended): when every coefficient, base score and heuristic value is a
finite (non-NaN) number AND no intermediate product or partial sum of the
multiplier and final-score computation exceeds the finite `f32` range (no
overflow to infinity), the composed final score is the exact finite value, in
particular non-NaN, and `partial_cmp` on any two finite final scores returns
`some` ordering, so the comparator's `unwrap` in `main`'s sort cannot panic. -/
theorem C9_sort_no_overflow (wT wI wS wH wY wC base fT fI fS fH fY fC : ℚ)
    (hmT : |wT * fT| ≤ fMax) (hmI : |wI * fI| ≤ fMax) (hmS : |wS * fS| ≤ fMax)
    (hmH : |wH * fH| ≤ fMax) (hmY : |wY * fY| ≤ fMax) (hmC : |wC * fC| ≤ fMax)
    (hs1 : |1 + wT * fT| ≤ fMax)
    (hs2 : |1 + wT * fT + wI * fI| ≤ fMax)
    (hs3 : |1 + wT * fT + wI * fI + wS * fS| ≤ fMax)
    (hs4 : |1 + wT * fT + wI * fI + wS * fS + wH * fH| ≤ fMax)
    (hs5 : |1 + wT * fT + wI * fI + wS * fS + wH * fH + wY * fY| ≤ fMax)
    (hs6 : |1 + wT * fT + wI * fI + wS * fS + wH * fH + wY * fY + wC * fC| ≤ fMax)
    (hb : |base * (1 + wT * fT + wI * fI + wS * fS + wH * fH + wY * fY + wC * fC)|
      ≤ fMax) :
    finalF32 (F32.fin base)
        ⟨F32.fin wT, F32.fin wI, F32.fin wS, F32.fin wH, F32.fin wC, F32.fin wY⟩
        (F32.fin fT) (F32.fin fI) (F32.fin fS) (F32.fin fH) (F32.fin fY) (F32.fin fC)
      = F32.fin (base * (1 + wT * fT + wI * fI + wS * fS + wH * fH + wY * fY + wC * fC)) ∧
    (finalF32 (F32.fin base)
        ⟨F32.fin wT, F32.fin wI, F32.fin wS, F32.fin wH, F32.fin wC, F32.fin wY⟩
        (F32.fin fT) (F32.fin fI) (F32.fin fS) (F32.fin fH) (F32.fin fY)
        (F32.fin fC)).isFin = true ∧
    ∀ x y : ℚ, (F32.pcmp (F32.fin x) (F32.fin y)).isSome = true := by
  have eT : (F32.fin wT).mul (F32.fin fT) = F32.fin (wT * fT) := F32.ofRat_of_abs_le hmT
  have eI : (F32.fin wI).mul (F32.fin fI) = F32.fin (wI * fI) := F32.ofRat_of_abs_le hmI
  have eS : (F32.fin wS).mul (F32.fin fS) = F32.fin (wS * fS) := F32.ofRat_of_abs_le hmS
  have eH : (F32.fin wH).mul (F32.fin fH) = F32.fin (wH * fH) := F32.ofRat_of_abs_le hmH
  have eY : (F32.fin wY).mul (F32.fin fY) = F32.fin (wY * fY) := F32.ofRat_of_abs_le hmY
  have eC : (F32.fin wC).mul (F32.fin fC) = F32.fin (wC * fC) := F32.ofRat_of_abs_le hmC
  have a1 : (F32.fin 1).add (F32.fin (wT * fT)) = F32.fin (1 + wT * fT) :=
    F32.ofRat_of_abs_le hs1
  have a2 : (F32.fin (1 + wT * fT)).add (F32.fin (wI * fI))
      = F32.fin (1 + wT * fT + wI * fI) := F32.ofRat_of_abs_le hs2
  have a3 : (F32.fin (1 + wT * fT + wI * fI)).add (F32.fin (wS * fS))
      = F32.fin (1 + wT * fT + wI * fI + wS * fS) := F32.ofRat_of_abs_le hs3
  have a4 : (F32.fin (1 + wT * fT + wI * fI + wS * fS)).add (F32.fin (wH * fH))
      = F32.fin (1 + wT * fT + wI * fI + wS * fS + wH * fH) := F32.ofRat_of_abs_le hs4
  have a5 : (F32.fin (1 + wT * fT + wI * fI + wS * fS + wH * fH)).add (F32.fin (wY * fY))
      = F32.fin (1 + wT * fT + wI * fI + wS * fS + wH * fH + wY * fY) :=
    F32.ofRat_of_abs_le hs5
  have a6 : (F32.fin (1 + wT * fT + wI * fI + wS * fS + wH * fH + wY * fY)).add
        (F32.fin (wC * fC))
      = F32.fin (1 + wT * fT + wI * fI + wS * fS + wH * fH + wY * fY + wC * fC) :=
    F32.ofRat_of_abs_le hs6
  have eB : (F32.fin base).mul
        (F32.fin (1 + wT * fT + wI * fI + wS * fS + wH * fH + wY * fY + wC * fC))
      = F32.fin (base * (1 + wT * fT + wI * fI + wS * fS + wH * fH + wY * fY + wC * fC)) :=
    F32.ofRat_of_abs_le hb
  have hfin : finalF32 (F32.fin base)
      ⟨F32.fin wT, F32.fin wI, F32.fin wS, F32.fin wH, F32.fin wC, F32.fin wY⟩
      (F32.fin fT) (F32.fin fI) (F32.fin fS) (F32.fin fH) (F32.fin fY) (F32.fin fC)
      = F32.fin (base * (1 + wT * fT + wI * fI + wS * fS + wH * fH + wY * fY + wC * fC)) := by
    unfold finalF32 multF32
    dsimp only
    rw [eT, eI, eS, eH, eY, eC, a1, a2, a3, a4, a5, a6, eB]
  exact ⟨hfin, by rw [hfin]; rfl, fun x y => rfl⟩

/-- Witness for the amended C9 at concrete small inputs, with every
no-overflow hypothesis discharged numerically. -/
theorem C9_sort_no_overflow_witness :
    finalF32 (F32.fin 60)
        ⟨F32.fin 1, F32.fin 1, F32.fin 1, F32.fin 1, F32.fin 1, F32.fin (-2)⟩
        (F32.fin 0) (F32.fin 1) (F32.fin (1 / 2)) (F32.fin 0) (F32.fin 0) (F32.fin 1)
      = F32.fin (60 * (1 + 1 * 0 + 1 * 1 + 1 * (1 / 2) + 1 * 0 + (-2) * 0 + 1 * 1)) ∧
    (F32.pcmp (F32.fin 3) (F32.fin 60)).isSome = true := by
  have h := C9_sort_no_overflow 1 1 1 1 (-2) 1 60 0 1 (1 / 2) 0 0 1
    (by norm_num [abs_le, fMax]) (by norm_num [abs_le, fMax]) (by norm_num [abs_le, fMax])
    (by norm_num [abs_le, fMax]) (by norm_num [abs_le, fMax]) (by norm_num [abs_le, fMax])
    (by norm_num [abs_le, fMax]) (by norm_num [abs_le, fMax]) (by norm_num [abs_le, fMax])
    (by norm_num [abs_le, fMax]) (by norm_num [abs_le, fMax]) (by norm_num [abs_le, fMax])
    (by norm_num [abs_le, fMax])
  exact ⟨h.1, h.2.2 3 60⟩

end TftSynapse
